import Mathlib

/-!
Verification of the uidump-parser search-and-filter core (src/main.cpp).

The XML library is the external collaborator: it hands the program an
immutable tree of elements, each with a tag name, uniquely-named string
attributes in document order, and ordered child elements.  `Element` below is
that tree, with `ElementList` as the sibling/child chain (`FirstChildElement`
/ `NextSiblingElement` walk such chains).  The search functions of main.cpp
are translated one-to-one; each traversal is modelled as returning its visit
log — one `(element, emitted)` entry per call, in call order, where the flag
records whether `print_node_attributes` was invoked for that element.
-/

mutual
inductive Element where
  | mk (name : String) (attrs : List (String × String)) (children : ElementList)
inductive ElementList where
  | nil
  | cons (e : Element) (rest : ElementList)
end

def Element.name : Element → String
  | .mk n _ _ => n

def Element.attrs : Element → List (String × String)
  | .mk _ a _ => a

def Element.children : Element → ElementList
  | .mk _ _ c => c

/-- Attribute lookup, the model of tinyxml2 `XMLElement::Attribute(name)`:
the value of the uniquely-named attribute when present, otherwise null. -/
def Element.attr (e : Element) (n : String) : Option String :=
  (e.attrs.find? (fun p => p.1 == n)).map Prod.snd

/-- main.cpp lines 102-110.  The body guards on
`!filter_attribute.empty() && !filter_value.empty()`; only then is the
attribute read and compared (`attr_value && filter_value == attr_value`),
otherwise the function returns true. -/
def node_matches_additional_filter (element : Element)
    (filter_attribute filter_value : String) : Bool :=
  if filter_attribute ≠ "" ∧ filter_value ≠ "" then
    match element.attr filter_attribute with
    | some attr_value => filter_value == attr_value
    | none => false
  else
    true

/-- Primary test of `find_node_by_resource_id` (main.cpp lines 117-119):
`res_id_attr && resource_id == res_id_attr`. -/
def matches_resource_id (element : Element) (resource_id : String) : Bool :=
  match element.attr "resource-id" with
  | some res_id_attr => resource_id == res_id_attr
  | none => false

/-- Primary test of `find_node_by_class` (main.cpp lines 137-138):
`class_attr && class_name == class_attr`. -/
def matches_class (element : Element) (class_name : String) : Bool :=
  match element.attr "class" with
  | some class_attr => class_name == class_attr
  | none => false

/-- Primary test of `find_node_by_text` (main.cpp lines 156-157):
`text_attr && text_value == text_attr`. -/
def matches_text (element : Element) (text_value : String) : Bool :=
  match element.attr "text" with
  | some text_attr => text_value == text_attr
  | none => false

/-- main.cpp lines 71-100, as the list of lines written to standard output.
`only_print` is always a non-null C string at the call sites
(`only_print.c_str()`), so the `only_print && strlen(only_print) > 0` guard
is the emptiness test. -/
def print_node_attributes (element : Element) (only_print : String) : List String :=
  if only_print ≠ "" then
    match element.attr only_print with
    | some attr => [only_print ++ ": " ++ attr]
    | none => ["Attribute \x27" ++ only_print ++ "\x27 not found on node " ++ element.name]
  else
    ("Node: " ++ element.name)
      :: ((element.attrs.map fun p => "  " ++ p.1 ++ ": " ++ p.2)
          ++ (if element.attrs.isEmpty then
                ["  No attributes found for node: " ++ element.name]
              else [])
          ++ [""])

mutual
/-- main.cpp lines 112-131.  The element is tested (primary resource-id
equality, then the additional filter) and printed on success; then the
`FirstChildElement`/`NextSiblingElement` loop recurses into every child.
The `_children` companion is that loop. -/
def find_node_by_resource_id (element : Element) (resource_id : String)
    (filter_attribute filter_value : String) : List (Element × Bool) :=
  match element with
  | .mk n a cs =>
    (Element.mk n a cs,
      matches_resource_id (.mk n a cs) resource_id
        && node_matches_additional_filter (.mk n a cs) filter_attribute filter_value)
      :: find_node_by_resource_id_children cs resource_id filter_attribute filter_value
def find_node_by_resource_id_children (children : ElementList) (resource_id : String)
    (filter_attribute filter_value : String) : List (Element × Bool) :=
  match children with
  | .nil => []
  | .cons child rest =>
    find_node_by_resource_id child resource_id filter_attribute filter_value
      ++ find_node_by_resource_id_children rest resource_id filter_attribute filter_value
end

mutual
/-- main.cpp lines 133-150, same shape as `find_node_by_resource_id` with the
`class` attribute as the primary test. -/
def find_node_by_class (element : Element) (class_name : String)
    (filter_attribute filter_value : String) : List (Element × Bool) :=
  match element with
  | .mk n a cs =>
    (Element.mk n a cs,
      matches_class (.mk n a cs) class_name
        && node_matches_additional_filter (.mk n a cs) filter_attribute filter_value)
      :: find_node_by_class_children cs class_name filter_attribute filter_value
def find_node_by_class_children (children : ElementList) (class_name : String)
    (filter_attribute filter_value : String) : List (Element × Bool) :=
  match children with
  | .nil => []
  | .cons child rest =>
    find_node_by_class child class_name filter_attribute filter_value
      ++ find_node_by_class_children rest class_name filter_attribute filter_value
end

mutual
/-- main.cpp lines 152-169, same shape as `find_node_by_resource_id` with the
`text` attribute as the primary test. -/
def find_node_by_text (element : Element) (text_value : String)
    (filter_attribute filter_value : String) : List (Element × Bool) :=
  match element with
  | .mk n a cs =>
    (Element.mk n a cs,
      matches_text (.mk n a cs) text_value
        && node_matches_additional_filter (.mk n a cs) filter_attribute filter_value)
      :: find_node_by_text_children cs text_value filter_attribute filter_value
def find_node_by_text_children (children : ElementList) (text_value : String)
    (filter_attribute filter_value : String) : List (Element × Bool) :=
  match children with
  | .nil => []
  | .cons child rest =>
    find_node_by_text child text_value filter_attribute filter_value
      ++ find_node_by_text_children rest text_value filter_attribute filter_value
end

/-- main.cpp lines 171-184.  Unlike the three named variants, this function
loops over the sibling chain that STARTS at its argument
(`for (child = element; child != nullptr; child = child->NextSiblingElement())`),
testing each chain element and recursing into its children with the same
loop.  The argument here is that chain: the element passed in followed by
its following siblings; a null `element` is the empty chain, on which the
loop body never runs. -/
def find_node_by_filter (chain : ElementList)
    (filter_attribute filter_value : String) : List (Element × Bool) :=
  match chain with
  | .nil => []
  | .cons (.mk n a cs) rest =>
    (Element.mk n a cs,
      node_matches_additional_filter (.mk n a cs) filter_attribute filter_value)
      :: (find_node_by_filter cs filter_attribute filter_value
          ++ find_node_by_filter rest filter_attribute filter_value)

/-- Pointer-level entry of `find_node_by_resource_id`.  Line 117 reads
`element->Attribute("resource-id")` before any null test, so a null argument
is a null-pointer dereference; that fault is `none`. -/
def find_node_by_resource_id_entry (element : Option Element) (resource_id : String)
    (filter_attribute filter_value : String) : Option (List (Element × Bool)) :=
  match element with
  | none => none
  | some e => some (find_node_by_resource_id e resource_id filter_attribute filter_value)

/-- Pointer-level entry of `find_node_by_class`; line 137 dereferences the
argument before any null test, so a null argument is a fault (`none`). -/
def find_node_by_class_entry (element : Option Element) (class_name : String)
    (filter_attribute filter_value : String) : Option (List (Element × Bool)) :=
  match element with
  | none => none
  | some e => some (find_node_by_class e class_name filter_attribute filter_value)

/-- Pointer-level entry of `find_node_by_text`; line 156 dereferences the
argument before any null test, so a null argument is a fault (`none`). -/
def find_node_by_text_entry (element : Option Element) (text_value : String)
    (filter_attribute filter_value : String) : Option (List (Element × Bool)) :=
  match element with
  | none => none
  | some e => some (find_node_by_text e text_value filter_attribute filter_value)

/-- Configuration accumulated by the option loop of `main`
(main.cpp lines 186-245); every field is default-initialised to the empty
string and set by its flag. -/
structure Config where
  xml_file : String
  resource_id : String
  class_name : String
  text_value : String
  filter_attribute : String
  filter_value : String
  only_print : String

/-- Handling of one `--filter-attribute <attr=val>` argument
(main.cpp lines 218-226): `filter.find('=')` locates the first `=`; when
found, the attribute is the part before it and the value the part after it,
otherwise neither variable is assigned.  `splitAtFirstEq` is that split. -/
def splitAtFirstEq : List Char → Option (List Char × List Char)
  | [] => none
  | c :: cs =>
    if c = '=' then some ([], cs)
    else
      match splitAtFirstEq cs with
      | some (a, v) => some (c :: a, v)
      | none => none

/-- The `case F` branch as a function of the previous filter values: a
malformed argument (no `=`) leaves them unchanged. -/
def parse_filter_argument (optarg : String)
    (filter_attribute filter_value : String) : String × String :=
  match splitAtFirstEq optarg.data with
  | some (a, v) => (String.mk a, String.mk v)
  | none => (filter_attribute, filter_value)

/-- Which branch of the dispatch chain of `main` (lines 264-279) ran, with
the visit log of the traversal it invoked. -/
inductive SearchOutcome where
  | ranResourceId (log : List (Element × Bool))
  | ranClass (log : List (Element × Bool))
  | ranText (log : List (Element × Bool))
  | ranFilter (log : List (Element × Bool))
  | noCriteria

/-- Dispatch chain of `main` (main.cpp lines 264-279) applied to the parsed
root element.  `find_node_by_filter` receives the pointer to the root, i.e.
the chain consisting of the root followed by its following siblings; a
well-formed XML document has exactly one root element, so that chain is the
singleton. -/
def runSearch (cfg : Config) (root_element : Element) : SearchOutcome :=
  if cfg.resource_id ≠ "" then
    .ranResourceId (find_node_by_resource_id root_element cfg.resource_id
      cfg.filter_attribute cfg.filter_value)
  else if cfg.class_name ≠ "" then
    .ranClass (find_node_by_class root_element cfg.class_name
      cfg.filter_attribute cfg.filter_value)
  else if cfg.text_value ≠ "" then
    .ranText (find_node_by_text root_element cfg.text_value
      cfg.filter_attribute cfg.filter_value)
  else if cfg.filter_attribute ≠ "" ∧ cfg.filter_value ≠ "" then
    .ranFilter (find_node_by_filter (.cons root_element .nil)
      cfg.filter_attribute cfg.filter_value)
  else
    .noCriteria

/-- main.cpp lines 247-281 after option parsing: exit status together with
the search outcome when one was reached.  `parse_result` is the black-box
XML collaborator: `some root` when `doc.LoadFile` returns `XML_SUCCESS` on a
well-formed document (whose single root element it hands back), `none` on a
parse failure.  An empty `--file` path exits with `EXIT_FAILURE` (1) before
parsing; a parse failure returns 1; otherwise the dispatch chain runs and
`main` returns 0. -/
def mainRun (cfg : Config) (parse_result : Option Element) :
    Nat × Option SearchOutcome :=
  if cfg.xml_file = "" then (1, none)
  else
    match parse_result with
    | none => (1, none)
    | some root_element => (0, some (runSearch cfg root_element))

/-!  Specification-side definitions, written from the spec's words: the
depth-first pre-order enumeration of a tree (children in document order) and
the node count, used to state the traversal claims; and the two projections
of a visit log. -/

mutual
/-- Depth-first pre-order enumeration of a tree: the node, then its
children's subtrees in document order. -/
def preorder (e : Element) : List Element :=
  match e with
  | .mk n a cs => Element.mk n a cs :: preorderList cs
def preorderList : ElementList → List Element
  | .nil => []
  | .cons child rest => preorder child ++ preorderList rest
end

mutual
/-- Total number of nodes of a tree. -/
def size (e : Element) : Nat :=
  match e with
  | .mk _ _ cs => 1 + sizeList cs
def sizeList : ElementList → Nat
  | .nil => 0
  | .cons child rest => size child + sizeList rest
end

/-- The nodes a traversal visited (tested the predicate on), in order. -/
def visitedOf (log : List (Element × Bool)) : List Element :=
  log.map Prod.fst

/-- The nodes a traversal emitted (called `print_node_attributes` on), in
order. -/
def emittedOf (log : List (Element × Bool)) : List Element :=
  (log.filter (fun p => p.2)).map Prod.fst

/-! Helper lemmas. -/

theorem visitedOf_append (l₁ l₂ : List (Element × Bool)) :
    visitedOf (l₁ ++ l₂) = visitedOf l₁ ++ visitedOf l₂ := by
  simp [visitedOf]

theorem emittedOf_append (l₁ l₂ : List (Element × Bool)) :
    emittedOf (l₁ ++ l₂) = emittedOf l₁ ++ emittedOf l₂ := by
  simp [emittedOf, List.filter_append]

theorem emittedOf_cons (e : Element) (b : Bool) (l : List (Element × Bool)) :
    emittedOf ((e, b) :: l) = if b then e :: emittedOf l else emittedOf l := by
  cases b <;> simp [emittedOf]

/-- Characterisation of the additional filter: it is a constraint only when
both the attribute name and the expected value are non-empty. -/
theorem nmaf_true_iff (e : Element) (fa fv : String) :
    node_matches_additional_filter e fa fv = true ↔
      fa = "" ∨ fv = "" ∨ e.attr fa = some fv := by
  unfold node_matches_additional_filter
  by_cases hfa : fa = "" <;> by_cases hfv : fv = "" <;> simp [hfa, hfv]
  cases h : e.attr fa with
  | none => simp
  | some v =>
    constructor
    · intro hb
      exact congrArg some (eq_of_beq hb).symm
    · intro hv
      cases hv
      exact beq_self_eq_true fv

/-- An unconfigured additional filter accepts every element. -/
theorem nmaf_unset (e : Element) : node_matches_additional_filter e "" "" = true := by
  simp [node_matches_additional_filter]

theorem matches_resource_id_true_iff (e : Element) (resource_id : String) :
    matches_resource_id e resource_id = true ↔ e.attr "resource-id" = some resource_id := by
  unfold matches_resource_id
  cases h : e.attr "resource-id" with
  | none => simp
  | some v =>
    constructor
    · intro hb
      exact congrArg some (eq_of_beq hb).symm
    · intro hv
      cases hv
      exact beq_self_eq_true resource_id

theorem matches_class_true_iff (e : Element) (class_name : String) :
    matches_class e class_name = true ↔ e.attr "class" = some class_name := by
  unfold matches_class
  cases h : e.attr "class" with
  | none => simp
  | some v =>
    constructor
    · intro hb
      exact congrArg some (eq_of_beq hb).symm
    · intro hv
      cases hv
      exact beq_self_eq_true class_name

theorem matches_text_true_iff (e : Element) (text_value : String) :
    matches_text e text_value = true ↔ e.attr "text" = some text_value := by
  unfold matches_text
  cases h : e.attr "text" with
  | none => simp
  | some v =>
    constructor
    · intro hb
      exact congrArg some (eq_of_beq hb).symm
    · intro hv
      cases hv
      exact beq_self_eq_true text_value

mutual
theorem find_node_by_resource_id_log (e : Element) (rid fa fv : String) :
    visitedOf (find_node_by_resource_id e rid fa fv) = preorder e ∧
    emittedOf (find_node_by_resource_id e rid fa fv) =
      (preorder e).filter
        (fun x => matches_resource_id x rid && node_matches_additional_filter x fa fv) := by
  match e with
  | .mk n a cs =>
    have ih := find_node_by_resource_id_children_log cs rid fa fv
    constructor
    · simp [find_node_by_resource_id, preorder, visitedOf] at ih ⊢
      exact ih.1
    · simp [find_node_by_resource_id, preorder, emittedOf_cons, ih.2, List.filter_cons]
theorem find_node_by_resource_id_children_log (cs : ElementList) (rid fa fv : String) :
    visitedOf (find_node_by_resource_id_children cs rid fa fv) = preorderList cs ∧
    emittedOf (find_node_by_resource_id_children cs rid fa fv) =
      (preorderList cs).filter
        (fun x => matches_resource_id x rid && node_matches_additional_filter x fa fv) := by
  match cs with
  | .nil => simp [find_node_by_resource_id_children, preorderList, visitedOf, emittedOf]
  | .cons child rest =>
    have ih₁ := find_node_by_resource_id_log child rid fa fv
    have ih₂ := find_node_by_resource_id_children_log rest rid fa fv
    simp [find_node_by_resource_id_children, preorderList, visitedOf_append,
      emittedOf_append, List.filter_append, ih₁.1, ih₁.2, ih₂.1, ih₂.2]
end

mutual
theorem find_node_by_class_log (e : Element) (cn fa fv : String) :
    visitedOf (find_node_by_class e cn fa fv) = preorder e ∧
    emittedOf (find_node_by_class e cn fa fv) =
      (preorder e).filter
        (fun x => matches_class x cn && node_matches_additional_filter x fa fv) := by
  match e with
  | .mk n a cs =>
    have ih := find_node_by_class_children_log cs cn fa fv
    constructor
    · simp [find_node_by_class, preorder, visitedOf] at ih ⊢
      exact ih.1
    · simp [find_node_by_class, preorder, emittedOf_cons, ih.2, List.filter_cons]
theorem find_node_by_class_children_log (cs : ElementList) (cn fa fv : String) :
    visitedOf (find_node_by_class_children cs cn fa fv) = preorderList cs ∧
    emittedOf (find_node_by_class_children cs cn fa fv) =
      (preorderList cs).filter
        (fun x => matches_class x cn && node_matches_additional_filter x fa fv) := by
  match cs with
  | .nil => simp [find_node_by_class_children, preorderList, visitedOf, emittedOf]
  | .cons child rest =>
    have ih₁ := find_node_by_class_log child cn fa fv
    have ih₂ := find_node_by_class_children_log rest cn fa fv
    simp [find_node_by_class_children, preorderList, visitedOf_append,
      emittedOf_append, List.filter_append, ih₁.1, ih₁.2, ih₂.1, ih₂.2]
end

mutual
theorem find_node_by_text_log (e : Element) (tv fa fv : String) :
    visitedOf (find_node_by_text e tv fa fv) = preorder e ∧
    emittedOf (find_node_by_text e tv fa fv) =
      (preorder e).filter
        (fun x => matches_text x tv && node_matches_additional_filter x fa fv) := by
  match e with
  | .mk n a cs =>
    have ih := find_node_by_text_children_log cs tv fa fv
    constructor
    · simp [find_node_by_text, preorder, visitedOf] at ih ⊢
      exact ih.1
    · simp [find_node_by_text, preorder, emittedOf_cons, ih.2, List.filter_cons]
theorem find_node_by_text_children_log (cs : ElementList) (tv fa fv : String) :
    visitedOf (find_node_by_text_children cs tv fa fv) = preorderList cs ∧
    emittedOf (find_node_by_text_children cs tv fa fv) =
      (preorderList cs).filter
        (fun x => matches_text x tv && node_matches_additional_filter x fa fv) := by
  match cs with
  | .nil => simp [find_node_by_text_children, preorderList, visitedOf, emittedOf]
  | .cons child rest =>
    have ih₁ := find_node_by_text_log child tv fa fv
    have ih₂ := find_node_by_text_children_log rest tv fa fv
    simp [find_node_by_text_children, preorderList, visitedOf_append,
      emittedOf_append, List.filter_append, ih₁.1, ih₁.2, ih₂.1, ih₂.2]
end

/-- The sibling-chasing traversal visits exactly the pre-order enumeration of
the forest formed by its chain, and emits the members satisfying the
additional filter, in that order. -/
theorem find_node_by_filter_log (chain : ElementList) (fa fv : String) :
    visitedOf (find_node_by_filter chain fa fv) = preorderList chain ∧
    emittedOf (find_node_by_filter chain fa fv) =
      (preorderList chain).filter
        (fun x => node_matches_additional_filter x fa fv) := by
  induction chain, fa, fv using find_node_by_filter.induct with
  | case1 fa fv => simp [find_node_by_filter, preorderList, visitedOf, emittedOf]
  | case2 fa fv n a cs rest ih₁ ih₂ =>
    constructor
    · have h₁ := ih₁.1
      have h₂ := ih₂.1
      simp [visitedOf] at h₁ h₂
      simp [find_node_by_filter, preorderList, preorder, visitedOf, h₁, h₂]
    · simp [find_node_by_filter, preorderList, preorder, emittedOf_cons,
        emittedOf_append, List.filter_append, List.filter_cons, ih₁.2, ih₂.2]

mutual
theorem preorder_length (e : Element) : (preorder e).length = size e := by
  match e with
  | .mk n a cs =>
    have ih := preorderList_length cs
    simp [preorder, size, ih, Nat.add_comm]
theorem preorderList_length (cs : ElementList) :
    (preorderList cs).length = sizeList cs := by
  match cs with
  | .nil => simp [preorderList, sizeList]
  | .cons child rest =>
    have ih₁ := preorder_length child
    have ih₂ := preorderList_length rest
    simp [preorderList, sizeList, ih₁, ih₂]
end

/-! Claim theorems. -/

/-- C1, counterexample: started on an element that has a following sibling,
`find_node_by_filter` also visits and emits that sibling — a node outside the
subtree rooted at the starting element — so its emissions are not the
depth-first pre-order match set of that subtree. -/
theorem filter_traversal_sibling_counterexample :
    emittedOf (find_node_by_filter
        (.cons (.mk "A" [("k", "v")] .nil) (.cons (.mk "B" [("k", "v")] .nil) .nil))
        "k" "v")
      ≠ (preorder (.mk "A" [("k", "v")] .nil)).filter
          (fun x => node_matches_additional_filter x "k" "v") := by
  intro h
  exact absurd (congrArg List.length h) (by decide)

/-- C1, amended: when the starting element has no following sibling (always the
case for the unique root element of an XML document), the attribute-filter
traversal visits exactly the depth-first pre-order of the subtree rooted at
that element and emits exactly the members satisfying the attribute-equality
predicate, in pre-order and without duplication; in general it traverses the
forest consisting of the starting element and all its following siblings. -/
theorem filter_traversal_subtree_equiv (e : Element) (fa fv : String)
    (sibs : ElementList) :
    visitedOf (find_node_by_filter (.cons e .nil) fa fv) = preorder e ∧
    emittedOf (find_node_by_filter (.cons e .nil) fa fv) =
      (preorder e).filter (fun x => node_matches_additional_filter x fa fv) ∧
    emittedOf (find_node_by_filter (.cons e sibs) fa fv) =
      (preorderList (.cons e sibs)).filter
        (fun x => node_matches_additional_filter x fa fv) := by
  have h₁ := find_node_by_filter_log (.cons e .nil) fa fv
  have h₂ := find_node_by_filter_log (.cons e sibs) fa fv
  refine ⟨?_, ?_, h₂.2⟩
  · simpa [preorderList] using h₁.1
  · simpa [preorderList] using h₁.2

/-- C2, counterexample: with a secondary filter configured as attribute `x`
and expected value `""`, an element that does not carry the attribute `x` at
all nevertheless passes `node_matches_additional_filter` — the claim instead
requires the attribute to exist and equal the empty string. -/
theorem secondary_filter_empty_value_counterexample :
    node_matches_additional_filter (.mk "node" [] .nil) "x" "" = true ∧
    Element.attr (.mk "node" [] .nil) "x" = none := by
  exact ⟨by decide, by decide⟩

/-- C2, amended: if no secondary filter is configured — and a filter whose
attribute name OR expected value is the empty string counts as unconfigured —
`node_matches_additional_filter` is true; otherwise it is true iff the element
carries the named attribute and its value equals the expected value exactly.
A configured filter whose expected value is the empty string therefore
imposes no constraint at all. -/
theorem secondary_filter_match_spec (e : Element) (fa fv : String) :
    node_matches_additional_filter e fa fv = true ↔
      fa = "" ∨ fv = "" ∨ e.attr fa = some fv :=
  nmaf_true_iff e fa fv

/-- C3, counterexample: a null node is not a no-op for all four traversal
variants — the resource-id, class and text variants read an attribute of
their argument before any null test, so a null argument is a null-pointer
dereference (`none`), not a silent no-op (`some []`). -/
theorem null_node_faults_counterexample :
    find_node_by_resource_id_entry none "id" "" "" = none ∧
    find_node_by_class_entry none "cls" "" "" = none ∧
    find_node_by_text_entry none "txt" "" "" = none ∧
    find_node_by_resource_id_entry none "id" "" "" ≠ some [] := by
  refine ⟨rfl, rfl, rfl, ?_⟩
  simp [find_node_by_resource_id_entry]

/-- C3, amended: a null node terminates a branch of recursion silently where
the code tests for null — the sibling-chasing loop of the attribute-filter
variant makes a null starting node a no-op, and the child loops of every
variant stop at null before recursing — but passing a null node directly to
the resource-id, class, or text traversal dereferences it without a check:
a fault, not a no-op. -/
theorem null_node_branch_termination (rid cn tv fa fv : String) :
    find_node_by_filter .nil fa fv = [] ∧
    find_node_by_resource_id_entry none rid fa fv = none ∧
    find_node_by_class_entry none cn fa fv = none ∧
    find_node_by_text_entry none tv fa fv = none :=
  ⟨rfl, rfl, rfl, rfl⟩

/-- C5: each primary predicate holds iff the element carries the attribute
named by the criterion's kind (`resource-id`, `class`, `text`, or the
filter's own attribute name) with a value byte-for-byte equal to the target;
a missing attribute is a plain non-match, never an error. -/
theorem primary_predicate_spec (e : Element) (rid cn tv fa fv : String)
    (hfa : fa ≠ "") (hfv : fv ≠ "") :
    (matches_resource_id e rid = true ↔ e.attr "resource-id" = some rid) ∧
    (matches_class e cn = true ↔ e.attr "class" = some cn) ∧
    (matches_text e tv = true ↔ e.attr "text" = some tv) ∧
    (node_matches_additional_filter e fa fv = true ↔ e.attr fa = some fv) := by
  refine ⟨matches_resource_id_true_iff e rid, matches_class_true_iff e cn,
    matches_text_true_iff e tv, ?_⟩
  rw [nmaf_true_iff]
  simp [hfa, hfv]

/-- C5, witness at a concrete element and criteria. -/
theorem primary_predicate_spec_witness :
    ("package" : String) ≠ "" ∧ ("com.app" : String) ≠ "" ∧
    ((matches_resource_id (.mk "n" [("resource-id", "x"), ("package", "com.app")] .nil) "x"
        = true ↔
      Element.attr (.mk "n" [("resource-id", "x"), ("package", "com.app")] .nil) "resource-id"
        = some "x") ∧
    (matches_class (.mk "n" [("resource-id", "x"), ("package", "com.app")] .nil) "y"
        = true ↔
      Element.attr (.mk "n" [("resource-id", "x"), ("package", "com.app")] .nil) "class"
        = some "y") ∧
    (matches_text (.mk "n" [("resource-id", "x"), ("package", "com.app")] .nil) "z"
        = true ↔
      Element.attr (.mk "n" [("resource-id", "x"), ("package", "com.app")] .nil) "text"
        = some "z") ∧
    (node_matches_additional_filter
        (.mk "n" [("resource-id", "x"), ("package", "com.app")] .nil) "package" "com.app"
        = true ↔
      Element.attr (.mk "n" [("resource-id", "x"), ("package", "com.app")] .nil) "package"
        = some "com.app")) :=
  ⟨by decide, by decide,
    primary_predicate_spec (.mk "n" [("resource-id", "x"), ("package", "com.app")] .nil)
      "x" "y" "z" "package" "com.app" (by decide) (by decide)⟩

/-- C6: each of the three named-criterion traversals evaluates its predicate
on every node of the tree exactly once, in depth-first pre-order with
children in document order, whatever the criterion and filter strings are;
the number of visited nodes is the total node count. -/
theorem traversal_visits_every_node (e : Element) (rid cn tv fa fv : String) :
    visitedOf (find_node_by_resource_id e rid fa fv) = preorder e ∧
    visitedOf (find_node_by_class e cn fa fv) = preorder e ∧
    visitedOf (find_node_by_text e tv fa fv) = preorder e ∧
    (preorder e).length = size e :=
  ⟨(find_node_by_resource_id_log e rid fa fv).1, (find_node_by_class_log e cn fa fv).1,
    (find_node_by_text_log e tv fa fv).1, preorder_length e⟩

/-- C9: the secondary filter only restricts the match set — a node matching a
primary criterion together with a configured additional filter also matches
that primary criterion with the filter absent, the combined predicate being
the conjunction of the two, and the absent filter being constantly true. -/
theorem secondary_filter_restricts (e : Element) (rid cn tv fa fv : String) :
    node_matches_additional_filter e "" "" = true ∧
    ((matches_resource_id e rid && node_matches_additional_filter e fa fv) = true →
      (matches_resource_id e rid && node_matches_additional_filter e "" "") = true) ∧
    ((matches_class e cn && node_matches_additional_filter e fa fv) = true →
      (matches_class e cn && node_matches_additional_filter e "" "") = true) ∧
    ((matches_text e tv && node_matches_additional_filter e fa fv) = true →
      (matches_text e tv && node_matches_additional_filter e "" "") = true) := by
  refine ⟨nmaf_unset e, ?_, ?_, ?_⟩ <;>
    · intro h
      simp only [Bool.and_eq_true] at h ⊢
      exact ⟨h.1, nmaf_unset e⟩

/-- C9, witness at a concrete element, criterion and filter. -/
theorem secondary_filter_restricts_witness :
    (matches_resource_id (.mk "n" [("resource-id", "x"), ("package", "v")] .nil) "x"
      && node_matches_additional_filter
           (.mk "n" [("resource-id", "x"), ("package", "v")] .nil) "" "") = true :=
  (secondary_filter_restricts (.mk "n" [("resource-id", "x"), ("package", "v")] .nil)
    "x" "c" "t" "package" "v").2.1 (by decide)

/-- C4: exactly one traversal variant runs, selected in the fixed priority
order resource-id, then class, then text, then attribute-filter-as-primary;
when a named criterion is active, the attribute filter only enters as the
conjunct of the combined predicate, never as the primary criterion. -/
theorem dispatch_priority_spec (cfg : Config) (root : Element) :
    (cfg.resource_id ≠ "" →
      runSearch cfg root = .ranResourceId
        (find_node_by_resource_id root cfg.resource_id cfg.filter_attribute cfg.filter_value) ∧
      emittedOf (find_node_by_resource_id root cfg.resource_id cfg.filter_attribute cfg.filter_value) =
        (preorder root).filter (fun x => matches_resource_id x cfg.resource_id
          && node_matches_additional_filter x cfg.filter_attribute cfg.filter_value)) ∧
    (cfg.resource_id = "" → cfg.class_name ≠ "" →
      runSearch cfg root = .ranClass
        (find_node_by_class root cfg.class_name cfg.filter_attribute cfg.filter_value) ∧
      emittedOf (find_node_by_class root cfg.class_name cfg.filter_attribute cfg.filter_value) =
        (preorder root).filter (fun x => matches_class x cfg.class_name
          && node_matches_additional_filter x cfg.filter_attribute cfg.filter_value)) ∧
    (cfg.resource_id = "" → cfg.class_name = "" → cfg.text_value ≠ "" →
      runSearch cfg root = .ranText
        (find_node_by_text root cfg.text_value cfg.filter_attribute cfg.filter_value) ∧
      emittedOf (find_node_by_text root cfg.text_value cfg.filter_attribute cfg.filter_value) =
        (preorder root).filter (fun x => matches_text x cfg.text_value
          && node_matches_additional_filter x cfg.filter_attribute cfg.filter_value)) ∧
    (cfg.resource_id = "" → cfg.class_name = "" → cfg.text_value = "" →
      cfg.filter_attribute ≠ "" → cfg.filter_value ≠ "" →
      runSearch cfg root = .ranFilter
        (find_node_by_filter (.cons root .nil) cfg.filter_attribute cfg.filter_value) ∧
      emittedOf (find_node_by_filter (.cons root .nil) cfg.filter_attribute cfg.filter_value) =
        (preorder root).filter
          (fun x => node_matches_additional_filter x cfg.filter_attribute cfg.filter_value)) := by
  refine ⟨fun h₁ => ⟨by simp [runSearch, h₁], (find_node_by_resource_id_log root _ _ _).2⟩,
    fun h₁ h₂ => ⟨by simp [runSearch, h₁, h₂], (find_node_by_class_log root _ _ _).2⟩,
    fun h₁ h₂ h₃ => ⟨by simp [runSearch, h₁, h₂, h₃], (find_node_by_text_log root _ _ _).2⟩,
    fun h₁ h₂ h₃ h₄ h₅ => ⟨by simp [runSearch, h₁, h₂, h₃, h₄, h₅], ?_⟩⟩
  have h := (find_node_by_filter_log (.cons root .nil) cfg.filter_attribute cfg.filter_value).2
  simpa [preorderList] using h

/-- C4, witness: a configuration with every criterion populated dispatches to
the resource-id variant; one with only the attribute filter populated
dispatches to the filter variant. -/
theorem dispatch_priority_spec_witness :
    runSearch ⟨"f", "rid", "cn", "tv", "package", "v", ""⟩ (.mk "hierarchy" [] .nil)
      = .ranResourceId (find_node_by_resource_id (.mk "hierarchy" [] .nil) "rid" "package" "v") ∧
    runSearch ⟨"f", "", "", "", "package", "v", ""⟩ (.mk "hierarchy" [] .nil)
      = .ranFilter (find_node_by_filter (.cons (.mk "hierarchy" [] .nil) .nil) "package" "v") :=
  ⟨((dispatch_priority_spec ⟨"f", "rid", "cn", "tv", "package", "v", ""⟩
      (.mk "hierarchy" [] .nil)).1 (by decide)).1,
    ((dispatch_priority_spec ⟨"f", "", "", "", "package", "v", ""⟩
      (.mk "hierarchy" [] .nil)).2.2.2 rfl rfl rfl (by decide) (by decide)).1⟩

/-- C7: the output projector writes, for a requested attribute that is
present, the single line `name: value`; for a requested attribute that is
absent, a diagnostic naming the attribute and the element's tag; and with no
requested attribute, the `Node:` header, one indented line per attribute in
document order, a placeholder when there are no attributes, and a trailing
blank line. -/
theorem print_node_attributes_spec (e : Element) (op : String) :
    (∀ v, op ≠ "" → e.attr op = some v →
      print_node_attributes e op = [op ++ ": " ++ v]) ∧
    (op ≠ "" → e.attr op = none →
      print_node_attributes e op =
        ["Attribute \x27" ++ op ++ "\x27 not found on node " ++ e.name]) ∧
    (e.attrs ≠ [] →
      print_node_attributes e "" =
        ("Node: " ++ e.name)
          :: ((e.attrs.map fun p => "  " ++ p.1 ++ ": " ++ p.2) ++ [""])) ∧
    (e.attrs = [] →
      print_node_attributes e "" =
        ["Node: " ++ e.name, "  No attributes found for node: " ++ e.name, ""]) := by
  refine ⟨?_, ?_, ?_, ?_⟩
  · intro v hop hattr
    simp [print_node_attributes, hop, hattr]
  · intro hop hattr
    simp [print_node_attributes, hop, hattr]
  · intro hattrs
    simp [print_node_attributes, List.isEmpty_iff, hattrs]
  · intro hattrs
    simp [print_node_attributes, hattrs]

/-- C7, witness at concrete elements: attribute present, attribute absent,
and the all-attributes directive on an attribute-less element. -/
theorem print_node_attributes_spec_witness :
    print_node_attributes (.mk "android.widget.TextView" [("text", "hi")] .nil) "text"
      = ["text: hi"] ∧
    print_node_attributes (.mk "node" [] .nil) "text"
      = ["Attribute \x27text\x27 not found on node node"] ∧
    print_node_attributes (.mk "node" [] .nil) ""
      = ["Node: node", "  No attributes found for node: node", ""] :=
  ⟨(print_node_attributes_spec (.mk "android.widget.TextView" [("text", "hi")] .nil)
      "text").1 "hi" (by decide) (by decide),
    (print_node_attributes_spec (.mk "node" [] .nil) "text").2.1 (by decide) (by decide),
    (print_node_attributes_spec (.mk "node" [] .nil) "text").2.2.2 rfl⟩

/-- C8: the exit code is 1 exactly when the file path is empty or the parse
fails — both detected before any traversal, which then never runs — and 0 on
every other run, the no-criteria case included. -/
theorem exit_code_spec (cfg : Config) (pr : Option Element) :
    ((mainRun cfg pr).1 = 1 ↔ cfg.xml_file = "" ∨ pr = none) ∧
    ((mainRun cfg pr).1 = 0 ↔ cfg.xml_file ≠ "" ∧ pr ≠ none) ∧
    ((mainRun cfg pr).1 = 1 → (mainRun cfg pr).2 = none) ∧
    (∀ root, cfg.xml_file ≠ "" → pr = some root →
      (mainRun cfg pr).1 = 0 ∧ (mainRun cfg pr).2 = some (runSearch cfg root)) := by
  unfold mainRun
  by_cases hf : cfg.xml_file = "" <;> cases pr <;> simp [hf]

/-- C8, witness: a run with a file path, a parsed root, and no criteria at
all still exits 0, its dispatch reaching the no-criteria notice. -/
theorem exit_code_spec_witness :
    (mainRun ⟨"dump.xml", "", "", "", "", "", ""⟩ (some (.mk "hierarchy" [] .nil))).1 = 0 ∧
    (mainRun ⟨"dump.xml", "", "", "", "", "", ""⟩ (some (.mk "hierarchy" [] .nil))).2
      = some (runSearch ⟨"dump.xml", "", "", "", "", "", ""⟩ (.mk "hierarchy" [] .nil)) :=
  (exit_code_spec ⟨"dump.xml", "", "", "", "", "", ""⟩
    (some (.mk "hierarchy" [] .nil))).2.2.2 (.mk "hierarchy" [] .nil) (by decide) rfl

/-- Splitting a list that ends in `=` and has no earlier `=`. -/
theorem splitAtFirstEq_append_eq (l : List Char) (h : '=' ∉ l) :
    splitAtFirstEq (l ++ ['=']) = some (l, []) := by
  induction l with
  | nil => simp [splitAtFirstEq]
  | cons c cs ih =>
    have hc : ¬ c = '=' := fun hc => h (by simp [hc])
    have hcs : '=' ∉ cs := fun hm => h (List.mem_cons_of_mem _ hm)
    simp [splitAtFirstEq, hc, ih hcs]

/-- C10: a `--filter-attribute` argument whose value part is empty (the
first `=` is its last character) yields a filter with an empty expected
value; such a filter accepts every element — it imposes no constraint rather
than matching empty-valued attributes — and, with no other criterion set,
the dispatch chain takes the no-criteria branch (it requires both a
non-empty attribute name and a non-empty value), so no traversal runs. -/
theorem empty_filter_value_spec (a : String) (h : '=' ∉ a.data)
    (pa pv : String) :
    parse_filter_argument (a ++ "=") pa pv = (a, "") ∧
    (∀ e, node_matches_additional_filter e a "" = true) ∧
    (∀ f op root, runSearch ⟨f, "", "", "", a, "", op⟩ root = .noCriteria) := by
  refine ⟨?_, ?_, ?_⟩
  · unfold parse_filter_argument
    rw [String.data_append, show ("=" : String).data = ['='] from rfl,
      splitAtFirstEq_append_eq a.data h]
  · intro e
    rw [nmaf_true_iff]
    exact Or.inr (Or.inl rfl)
  · intro f op root
    simp [runSearch]

/-- C10, witness: the argument `enabled=` produces the filter
`("enabled", "")`, which accepts an element carrying no attributes, and with
no other criterion the dispatch performs no traversal. -/
theorem empty_filter_value_spec_witness :
    parse_filter_argument ("enabled" ++ "=") "" "" = ("enabled", "") ∧
    node_matches_additional_filter (.mk "node" [] .nil) "enabled" "" = true ∧
    runSearch ⟨"f", "", "", "", "enabled", "", ""⟩ (.mk "hierarchy" [] .nil)
      = .noCriteria :=
  ⟨(empty_filter_value_spec "enabled" (by decide) "" "").1,
    (empty_filter_value_spec "enabled" (by decide) "" "").2.1 (.mk "node" [] .nil),
    (empty_filter_value_spec "enabled" (by decide) "" "").2.2 "f" ""
      (.mk "hierarchy" [] .nil)⟩
